import Mathlib

/-!
Verification development for the `shredder` deblending package.

The embedding is shallow: numpy images become flat lists of rationals
(pixel arithmetic is elementwise, so the flattening is harmless), python
floats become exact rationals, fallible constructors become `Except`, and
the external collaborators (the EM fitters of ngmix, the coadd builder,
the mixture renderer) are treated as black boxes whose outputs are inputs
of the embedded functions.  A value produced by `np.sqrt` is in general
irrational, so such a value is represented symbolically by the `RVal`
type below.
-/

/-- Value of a floating-point quantity: either an exact rational, or the
nonnegative square root of a rational (the result of applying np.sqrt,
which is not rational-valued in general). -/
inductive RVal where
  | rat : ℚ → RVal
  | sqrt : ℚ → RVal
deriving DecidableEq

/-- Sum of the elementwise product of three same-shape flattened images. -/
def mul3sum (a b c : List ℚ) : ℚ :=
  (List.zipWith (fun x y => x * y) (List.zipWith (fun x y => x * y) a b) c).sum

/-- Embedding of get_flux (src/shredder/shredding.py lines 216-264): the
two-pass weighted template flux fit, with the two-iteration loop of the
source unrolled.  Arithmetic is exact over ℚ; division by zero yields 0,
so this embedding is unfaithful for a zero-sum template, whose float
normalization produces inf and nan in the source — get_flux_float below
tracks those special values for that path. -/
def get_flux (im wt model_in : List ℚ) : ℚ × RVal :=
  let flux0 : ℚ := -9999 * 10 ^ 9
  let model : List ℚ := model_in.map (fun x => x * (1 / model_in.sum))
  let xcorr_sum : ℚ := mul3sum model im wt
  let msq_sum : ℚ := mul3sum model model wt
  if msq_sum = 0 then
    (flux0, RVal.rat (10 ^ 9))
  else
    let flux := xcorr_sum / msq_sum
    let model2 := model.map (fun x => x * flux)
    let chi2 :=
      (List.zipWith (fun a b => a * b)
        (List.zipWith (fun m p => (m - p) ^ 2) model2 im) wt).sum
    let arg := chi2 / msq_sum / ((im.length : ℚ) - 1)
    if 0 ≤ arg then (flux, RVal.sqrt arg) else (flux, RVal.rat (10 ^ 9))

/-- Unit-sum normalization of the template (pass 1 of get_flux). -/
def norm_template (t : List ℚ) : List ℚ :=
  t.map (fun x => x * (1 / t.sum))

/-- Weighted template-data cross term S_xy over a normalized template. -/
def s_xy (im wt t : List ℚ) : ℚ := mul3sum t im wt

/-- Weighted template energy S_xx over a normalized template. -/
def s_xx (wt t : List ℚ) : ℚ := mul3sum t t wt

/-- Weighted residual sum of squares of flux times a normalized template
against the data. -/
def chi2_of (im wt t : List ℚ) (f : ℚ) : ℚ :=
  (List.zipWith (fun a b => a * b)
    (List.zipWith (fun m p => (m - p) ^ 2) (t.map (fun x => x * f)) im) wt).sum

/-- An IEEE-style floating-point value, for the paths of get_flux where
numpy special values matter: an exact finite rational (rounding and
overflow are not modelled), or one of inf, -inf, nan.  The sign of zero is
not modelled; the source only divides by the nonnegative 0.0 produced by
summing an all-zero template. -/
inductive FVal where
  | fin : ℚ → FVal
  | inf : FVal
  | ninf : FVal
  | nan : FVal
deriving DecidableEq

/-- IEEE addition on FVal. -/
def FVal.add : FVal → FVal → FVal
  | FVal.nan, _ => FVal.nan
  | _, FVal.nan => FVal.nan
  | FVal.fin a, FVal.fin b => FVal.fin (a + b)
  | FVal.inf, FVal.ninf => FVal.nan
  | FVal.ninf, FVal.inf => FVal.nan
  | FVal.inf, _ => FVal.inf
  | _, FVal.inf => FVal.inf
  | FVal.ninf, _ => FVal.ninf
  | _, FVal.ninf => FVal.ninf

/-- IEEE negation on FVal. -/
def FVal.neg : FVal → FVal
  | FVal.fin a => FVal.fin (-a)
  | FVal.inf => FVal.ninf
  | FVal.ninf => FVal.inf
  | FVal.nan => FVal.nan

/-- IEEE subtraction on FVal. -/
def FVal.sub (x y : FVal) : FVal := x.add y.neg

/-- IEEE multiplication on FVal; note 0 * inf = nan. -/
def FVal.mul : FVal → FVal → FVal
  | FVal.nan, _ => FVal.nan
  | _, FVal.nan => FVal.nan
  | FVal.fin a, FVal.fin b => FVal.fin (a * b)
  | FVal.fin a, FVal.inf =>
    if a = 0 then FVal.nan else if 0 < a then FVal.inf else FVal.ninf
  | FVal.inf, FVal.fin a =>
    if a = 0 then FVal.nan else if 0 < a then FVal.inf else FVal.ninf
  | FVal.fin a, FVal.ninf =>
    if a = 0 then FVal.nan else if 0 < a then FVal.ninf else FVal.inf
  | FVal.ninf, FVal.fin a =>
    if a = 0 then FVal.nan else if 0 < a then FVal.ninf else FVal.inf
  | FVal.inf, FVal.inf => FVal.inf
  | FVal.inf, FVal.ninf => FVal.ninf
  | FVal.ninf, FVal.inf => FVal.ninf
  | FVal.ninf, FVal.ninf => FVal.inf

/-- IEEE division on FVal; note 1.0/0.0 = inf and 0.0/0.0 = nan (the sign
of zero is not modelled, so a finite dividend over zero takes the sign of
the dividend). -/
def FVal.div : FVal → FVal → FVal
  | FVal.nan, _ => FVal.nan
  | _, FVal.nan => FVal.nan
  | FVal.fin a, FVal.fin b =>
    if b = 0 then
      if a = 0 then FVal.nan else if 0 < a then FVal.inf else FVal.ninf
    else FVal.fin (a / b)
  | FVal.fin _, FVal.inf => FVal.fin 0
  | FVal.fin _, FVal.ninf => FVal.fin 0
  | FVal.inf, FVal.fin b => if 0 ≤ b then FVal.inf else FVal.ninf
  | FVal.ninf, FVal.fin b => if 0 ≤ b then FVal.ninf else FVal.inf
  | FVal.inf, FVal.inf => FVal.nan
  | FVal.inf, FVal.ninf => FVal.nan
  | FVal.ninf, FVal.inf => FVal.nan
  | FVal.ninf, FVal.ninf => FVal.nan

/-- The source's comparison msq_sum == 0: IEEE equality with 0.0, false
for nan and the infinities. -/
def FVal.eqZero : FVal → Bool
  | FVal.fin a => a == 0
  | _ => false

/-- The source's comparison arg >= 0.0: false for nan. -/
def FVal.geZero : FVal → Bool
  | FVal.fin a => decide (0 ≤ a)
  | FVal.inf => true
  | _ => false

/-- numpy .sum() over a flattened image of floats: left fold of IEEE
addition from 0.0.  An all-nan image sums to nan. -/
def fsum (l : List FVal) : FVal := l.foldl FVal.add (FVal.fin 0)

/-- Sum of the elementwise IEEE product of three same-shape images. -/
def fmul3sum (a b c : List FVal) : FVal :=
  fsum (List.zipWith FVal.mul (List.zipWith FVal.mul a b) c)

/-- Error output of the float-tracking get_flux embedding: a float stored
directly (the sentinel 1e9), or np.sqrt applied to a float argument. -/
inductive FErr where
  | val : FVal → FErr
  | sqrt : FVal → FErr
deriving DecidableEq

/-- Embedding of get_flux (src/shredder/shredding.py lines 216-264) with
IEEE special values tracked through the arithmetic.  It refines get_flux
on the paths where the source's float semantics produce inf or nan — in
particular the normalization model *= 1.0/model.sum() (line 241) of a
zero-sum template, where 1.0/0.0 is inf and 0*inf is nan. -/
def get_flux_float (im wt model_in : List FVal) : FVal × FErr :=
  let flux0 : FVal := FVal.fin (-9999 * 10 ^ 9)
  let model := model_in.map (fun x => x.mul ((FVal.fin 1).div (fsum model_in)))
  let xcorr_sum := fmul3sum model im wt
  let msq_sum := fmul3sum model model wt
  if msq_sum.eqZero then
    (flux0, FErr.val (FVal.fin (10 ^ 9)))
  else
    let flux := xcorr_sum.div msq_sum
    let model2 := model.map (fun x => x.mul flux)
    let chi2 := fsum (List.zipWith FVal.mul
      (List.zipWith (fun m p => (m.sub p).mul (m.sub p)) model2 im) wt)
    let arg := (chi2.div msq_sum).div (FVal.fin ((im.length : ℚ) - 1))
    if arg.geZero then (flux, FErr.sqrt arg)
    else (flux, FErr.val (FVal.fin (10 ^ 9)))

/-- Max-iterations bit flag of the external EM fitter (ngmix.em.EM_MAXITER). -/
def EM_MAXITER : Nat := 2

/-- Modelled from the spec: the procflags module of this repository is not
under src; the spec (sections 4.1 and 7) requires COADD_FAILURE and
BAND_FAILURE to be distinct combinable failure bits, so they are taken to
be distinct powers of two, also distinct from the fitter's bits. -/
def COADD_FAILURE : Nat := 4

/-- Modelled from the spec: see COADD_FAILURE. -/
def BAND_FAILURE : Nat := 8

/-- Gate applied to a fit result's flags (src/shredder/shredding.py lines 88
and 138): the fit is unusable when its flags are nonzero and the
max-iterations bit is absent from them. -/
def band_failed (bf : Nat) : Bool :=
  bf != 0 && bf &&& EM_MAXITER == 0

/-- One entry of the band_results sequence: the band fit's flags, and
whether flux calibration (_set_band_flux_and_gmix) ran for that band. -/
structure BandRes where
  flags : Nat
  calibrated : Bool
deriving DecidableEq

/-- Embedding of the loop of Shredder._do_multiband_fit (src lines 122-146):
threads the aggregate flags through the bands and appends one result per
band, in band order.  The per-band EM fits are external, so each band fit's
result flags are an input. -/
def do_multiband_fit (flags0 : Nat) : List Nat → Nat × List BandRes
  | [] => (flags0, [])
  | bf :: rest =>
    let step :=
      if band_failed bf then (flags0 ||| BAND_FAILURE, BandRes.mk bf false)
      else (flags0, BandRes.mk bf true)
    let tail := do_multiband_fit step.1 rest
    (tail.1, step.2 :: tail.2)

/-- Aggregate result assembled by Shredder.shred. -/
structure ShredResult where
  flags : Nat
  coadd_flags : Nat
  coadd_gmix_stored : Bool
  band_results : Option (List BandRes)
deriving DecidableEq

/-- Embedding of Shredder.shred (src lines 65-94).  The coadd EM fit is an
external collaborator, so its result flags are an input, as are the
per-band fit flags.  Line 86 of the source evaluates the comparison
expression res['flags'] != cres['flags'] and discards the value, so it has
no effect and does not appear here. -/
def shred (coaddFlags : Nat) (bandFlags : List Nat) : ShredResult :=
  if coaddFlags ≠ 0 ∧ coaddFlags &&& EM_MAXITER = 0 then
    { flags := 0 ||| COADD_FAILURE, coadd_flags := coaddFlags,
      coadd_gmix_stored := false, band_results := none }
  else
    let mb := do_multiband_fit 0 bandFlags
    { flags := mb.1, coadd_flags := coaddFlags,
      coadd_gmix_stored := true, band_results := some mb.2 }

/-- Fields of a band result set by _set_band_flux_and_gmix. -/
structure BandCalib where
  gmix_flux : ℚ
  total_flux : ℚ
  total_flux_err : RVal
deriving DecidableEq

/-- Embedding of Shredder._set_band_flux_and_gmix (src lines 171-199).  The
rendered PSF-convolved model image bim is an input (mixture rendering is an
external collaborator); scale is the band Jacobian's scale.  The source
stores the flux value, not flux_err, into total_flux_err (line 197). -/
def set_band_flux_and_gmix (image weight bim : List ℚ) (scale : ℚ) : BandCalib :=
  let fe := get_flux image weight bim
  { gmix_flux := fe.1 * scale ^ 2, total_flux := fe.1,
    total_flux_err := RVal.rat fe.1 }

/-- Embedding of _get_start_end (src/shredder/subtractor.py lines 342-352):
the one-axis bounding-box computation with its bounds check. -/
def get_start_end (image_dim : Nat) (cen : Int) (rad : Nat) :
    Except String (Int × Int) :=
  let start := cen - (rad : Int)
  let stop := cen + (rad : Int) + 1
  if start < 0 ∨ start > (image_dim : Int) then
    Except.error "requested bbox range is out of bounds"
  else
    Except.ok (start, stop)

/-- Embedding of _get_bbox (src/shredder/subtractor.py lines 322-339):
radius is stamp_size // 2; the row axis is checked before the column. -/
def get_bbox (image_shape : Nat × Nat) (row col : Int) (stamp_size : Nat) :
    Except String (Int × Int × Int × Int) :=
  let rad := stamp_size / 2
  match get_start_end image_shape.1 row rad with
  | Except.error ex => Except.error ex
  | Except.ok rr =>
    match get_start_end image_shape.2 col rad with
    | Except.error ex => Except.error ex
    | Except.ok cc => Except.ok (rr.1, rr.2, cc.1, cc.2)

/-- Embedding of ModelSubtractor._set_ngauss_per (src/shredder/subtractor.py
lines 263-276): only the PSF-convolved count's divisibility is checked;
returns (ngauss_per, ngauss_per_convolved), both by floor division. -/
def set_ngauss_per (ngauss ngauss_convolved nobj : Nat) :
    Except String (Nat × Nat) :=
  if ngauss_convolved % nobj ≠ 0 then
    Except.error "found ngauss mod nobj nonzero"
  else
    Except.ok (ngauss / nobj, ngauss_convolved / nobj)

/-- Embedding of ModelSubtractor.get_object_index_range and its convolved
twin (src/shredder/subtractor.py lines 199-231), as a function of the
per-object component count. -/
def get_object_index_range (ngauss_per index : Nat) : Nat × Nat :=
  (ngauss_per * index, ngauss_per * (index + 1))

/-- Elementwise combination of an image with a model image (numpy += or -=
on same-shape arrays). -/
def apply_model (op : ℚ → ℚ → ℚ) (image model : List ℚ) : List ℚ :=
  List.zipWith op image model

/-- Embedding of ModelSubtractor._add_or_subtract_model_image (src lines
248-261): for every band, add (isAdd true) or subtract (isAdd false) object
index's model image onto that band's image. -/
def add_or_subtract_model_image (isAdd : Bool) (images : List (List ℚ))
    (model_images : List (List (List ℚ))) (index : Nat) : List (List ℚ) :=
  List.zipWith
    (fun im bms =>
      apply_model
        (match isAdd with
          | true => fun a b => a + b
          | false => fun a b => a - b)
        im (bms.getD index []))
    images model_images

/-- Pixel-to-sky Jacobian of an Observation: a scale and a center. -/
structure Jacobian where
  scale : ℚ
  row0 : ℚ
  col0 : ℚ
deriving DecidableEq

/-- An ngmix Observation as the subtractor uses it: flattened pixel image
and weight map, a Jacobian, and a PSF left abstract (type parameter,
since the subtractor only copies it). -/
structure Obs (P : Type) where
  image : List ℚ
  weight : List ℚ
  jacobian : Jacobian
  psf : P
deriving DecidableEq

/-- Embedding of ModelSubtractor._build_subtracted_mbobs (src lines
301-319): each band's Observation is copied and the per-object model
images are subtracted from its image in turn; weight, jacobian and psf
are those of the copy, untouched. -/
def build_subtracted_mbobs {P : Type} (mbobs : List (Obs P))
    (model_images : List (List (List ℚ))) : List (Obs P) :=
  List.zipWith
    (fun obs bms =>
      { obs with
        image := bms.foldl (fun img m => List.zipWith (fun a b => a - b) img m)
          obs.image })
    mbobs model_images

/-- Elementwise sum of a band's per-object model images over an n-pixel
grid. -/
def sum_model_images (n : Nat) (bms : List (List ℚ)) : List ℚ :=
  bms.foldr (fun m acc => List.zipWith (fun a b => a + b) m acc)
    (List.replicate n 0)

/-- Shape compatibility for add_source: every band has a model image for
the given object index with the band image's pixel count (numpy elementwise
assignment requires equal shapes). -/
def models_match (images : List (List ℚ))
    (model_images : List (List (List ℚ))) (index : Nat) : Prop :=
  List.Forall₂ (fun im bms => (bms.getD index []).length = im.length)
    images model_images

/-- Shape compatibility for the subtracted observation set: every model
image of a band has that band image's pixel count. -/
def bands_match {P : Type} (mbobs : List (Obs P))
    (model_images : List (List (List ℚ))) : Prop :=
  List.Forall₂ (fun obs bms => ∀ m ∈ bms, m.length = obs.image.length)
    mbobs model_images

/-! Helper lemmas. -/

/-- The aggregate flags after the multiband loop either stay at their
initial value or gain exactly the BAND_FAILURE bit. -/
theorem do_multiband_fit_flags (flags0 : Nat) (bfs : List Nat) :
    (do_multiband_fit flags0 bfs).1 = flags0 ∨
      (do_multiband_fit flags0 bfs).1 = flags0 ||| BAND_FAILURE := by
  induction bfs generalizing flags0 with
  | nil => left; rfl
  | cons bf rest ih =>
    unfold do_multiband_fit
    by_cases h : band_failed bf = true
    · simp only [h, if_true]
      rcases ih (flags0 ||| BAND_FAILURE) with h2 | h2
    
      · right; exact h2
      · right
        rw [h2, Nat.or_assoc, Nat.or_self]
    · simp only [h, if_false]
      exact ih flags0

/-- When started at zero, the multiband loop's flags are 0 or
BAND_FAILURE. -/
theorem multiband_flags_cases (bfs : List Nat) :
    (do_multiband_fit 0 bfs).1 = 0 ∨
      (do_multiband_fit 0 bfs).1 = BAND_FAILURE := by
  have := do_multiband_fit_flags 0 bfs
  rwa [Nat.zero_or] at this

/-- The multiband loop appends one entry per band, in order, carrying that
band fit's flags. -/
theorem do_multiband_fit_map_flags (flags0 : Nat) (bfs : List Nat) :
    (do_multiband_fit flags0 bfs).2.map BandRes.flags = bfs := by
  induction bfs generalizing flags0 with
  | nil => rfl
  | cons bf rest ih =>
    unfold do_multiband_fit
    cases hb : band_failed bf
    · simp [hb, ih]
    · simp [hb, ih]

/-- If no band fails the gate, the multiband loop leaves the aggregate
flags unchanged. -/
theorem do_multiband_fit_no_fail (flags0 : Nat) (bfs : List Nat)
    (h : ∀ bf ∈ bfs, band_failed bf = false) :
    (do_multiband_fit flags0 bfs).1 = flags0 := by
  induction bfs generalizing flags0 with
  | nil => rfl
  | cons bf rest ih =>
    unfold do_multiband_fit
    have hb : band_failed bf = false := h bf (List.mem_cons_self bf rest)
    simp only [hb, Bool.false_eq_true, if_false]
    exact ih flags0 fun x hx => h x (List.mem_cons_of_mem bf hx)

/-! Claim theorems. -/

/-- C2: _set_band_flux_and_gmix stores the flux value, not the estimator's
uncertainty, into total_flux_err (source line 197).  On image [1,3], weight
[1,1], rendered model [3,1], scale 1 the estimator returns flux 12/5 with
uncertainty sqrt(256/25), yet the stored total_flux_err is the rational
12/5, which differs from that uncertainty (indeed the square of 12/5 is
not 256/25, so the two are different even as numbers). -/
theorem C2_total_flux_err_holds_flux :
    set_band_flux_and_gmix [1, 3] [1, 1] [3, 1] 1 =
      { gmix_flux := 12/5, total_flux := 12/5,
        total_flux_err := RVal.rat (12/5) } ∧
    (get_flux [1, 3] [1, 1] [3, 1]).2 = RVal.sqrt (256/25) ∧
    RVal.rat (12/5) ≠ RVal.sqrt (256/25) ∧
    ((12 : ℚ)/5) ^ 2 ≠ 256/25 := by
  refine ⟨by norm_num [set_band_flux_and_gmix, get_flux, mul3sum],
    by norm_num [get_flux, mul3sum], by decide, by norm_num⟩

/-- C3: the source's bounding-box check tests only the start of the
window: on a 100-pixel axis with center 97 and stamp_size 11 (radius 5)
the requested window [92, 103) has its end beyond the image bound 100,
yet no range error is raised and the full bbox request succeeds,
contradicting the claim that such windows are rejected. -/
theorem C3_end_not_checked :
    get_start_end 100 97 5 = Except.ok (92, 103) ∧ (103 : Int) > 100 ∧
      get_bbox (100, 100) 97 97 11 = Except.ok (92, 103, 92, 103) := by
  refine ⟨rfl, by decide, rfl⟩

/-- C4: construction checks only the PSF-convolved count's divisibility:
with 2 objects, 3 pre-PSF and 6 convolved components, _set_ngauss_per
succeeds (pre-PSF per-object count 1 by floor division) although 3 is not
divisible by 2, contradicting the claim that either nonzero remainder
fails construction; the last pre-PSF object range then ends at 2, short of
the 3 components. -/
theorem C4_prepsf_divisibility_not_checked :
    set_ngauss_per 3 6 2 = Except.ok (1, 3) ∧ (3 : Nat) % 2 ≠ 0 ∧
      (get_object_index_range 1 1).2 = 2 ∧ (2 : Nat) ≠ 3 := by
  refine ⟨rfl, by decide, rfl, by decide⟩

/-- C7: when the weighted energy S_xx of the unit-sum-normalized template
is nonzero, get_flux returns flux = S_xy / S_xx together with the square
root of chi2 / S_xx / (n_pixels - 1) when that argument is nonnegative,
and the sentinel 1e9 otherwise; it is a total function, so it never
raises. -/
theorem C7_get_flux_formula (im wt t : List ℚ)
    (h : s_xx wt (norm_template t) ≠ 0) :
    get_flux im wt t =
      (s_xy im wt (norm_template t) / s_xx wt (norm_template t),
        if 0 ≤ chi2_of im wt (norm_template t)
              (s_xy im wt (norm_template t) / s_xx wt (norm_template t)) /
              s_xx wt (norm_template t) / ((im.length : ℚ) - 1) then
          RVal.sqrt (chi2_of im wt (norm_template t)
              (s_xy im wt (norm_template t) / s_xx wt (norm_template t)) /
              s_xx wt (norm_template t) / ((im.length : ℚ) - 1))
        else RVal.rat (10 ^ 9)) := by
  simp only [s_xx, s_xy, chi2_of, norm_template] at h ⊢
  simp only [get_flux]
  rw [if_neg h]
  split_ifs with hc
  · rfl
  · rfl

/-- Witness for C7 at a concrete input with nonzero template energy. -/
theorem C7_get_flux_formula_witness :
    get_flux [1, 3] [1, 1] [3, 1] = (12/5, RVal.sqrt (256/25)) := by
  have h := C7_get_flux_formula [1, 3] [1, 1] [3, 1]
    (by norm_num [s_xx, norm_template, mul3sum])
  rw [h]
  norm_num [s_xy, s_xx, chi2_of, norm_template, mul3sum]

/-- C8: the degenerate-template guard never fires for an all-zero
template.  Its sum is 0.0, so the normalization 1.0/0.0 (line 241) gives
inf, 0*inf gives nan, msq_sum is nan, the msq_sum == 0 test is false, and
get_flux returns (nan, 1e9), not the claimed sentinel pair (-9999e9,
1e9): the returned flux is not the sentinel value. -/
theorem C8_all_zero_template_nan :
    get_flux_float [FVal.fin 5, FVal.fin 7] [FVal.fin 1, FVal.fin 1]
        [FVal.fin 0, FVal.fin 0] =
      (FVal.nan, FErr.val (FVal.fin (10 ^ 9))) ∧
    FVal.nan ≠ FVal.fin (-9999 * 10 ^ 9) := by
  refine ⟨?_, by decide⟩
  norm_num [get_flux_float, fmul3sum, fsum, FVal.mul, FVal.div, FVal.add,
    FVal.sub, FVal.neg, FVal.eqZero, FVal.geZero]

/-- The multiband loop's flags never contain the COADD_FAILURE bit. -/
theorem multiband_flags_coadd_bit (bfs : List Nat) :
    (do_multiband_fit 0 bfs).1 &&& COADD_FAILURE = 0 := by
  rcases multiband_flags_cases bfs with h | h <;> rw [h] <;> rfl

/-- C1 as stated fails on the code: coadd flags 3 are nonzero and not
solely the max-iterations bit (EM_MAXITER is 2), so the claim demands
COADD_FAILURE and skipped refinement, yet shred proceeds, because the
source gate only tests whether the max-iterations bit is absent. -/
theorem C1_counterexample :
    (3 : Nat) ≠ 0 ∧ (3 : Nat) ≠ EM_MAXITER ∧
      (shred 3 [0]).flags &&& COADD_FAILURE = 0 ∧
      (shred 3 [0]).band_results = some [BandRes.mk 0 true] ∧
      (shred 3 [0]).coadd_gmix_stored = true := by
  refine ⟨by decide, by decide, rfl, rfl, rfl⟩

/-- C1 amended: COADD_FAILURE is set and per-band refinement is skipped
exactly when the coadd fit's flags are nonzero and the max-iterations bit
is absent from them; when the flags are zero or include that bit, the
coadd mixture is stored and per-band refinement proceeds. -/
theorem C1_coadd_gate (cf : Nat) (bfs : List Nat) :
    ((shred cf bfs).flags &&& COADD_FAILURE ≠ 0 ↔
      cf ≠ 0 ∧ cf &&& EM_MAXITER = 0) ∧
    ((shred cf bfs).band_results = none ↔
      cf ≠ 0 ∧ cf &&& EM_MAXITER = 0) ∧
    ((shred cf bfs).coadd_gmix_stored = true ↔
      ¬(cf ≠ 0 ∧ cf &&& EM_MAXITER = 0)) := by
  unfold shred
  by_cases h : cf ≠ 0 ∧ cf &&& EM_MAXITER = 0
  · rw [if_pos h]
    refine ⟨?_, ?_, ?_⟩ <;> simp [h, COADD_FAILURE]
  · rw [if_neg h]
    refine ⟨?_, ?_, ?_⟩
    · simp [h, multiband_flags_coadd_bit bfs]
    · simp [h]
    · simp [h]

/-- C6: when COADD_FAILURE is not set, band_results is present with
exactly one entry per input band in input order, each carrying that band
fit's flags (failed bands included); when COADD_FAILURE is set,
band_results is absent. -/
theorem C6_band_results_shape (cf : Nat) (bfs : List Nat) :
    ((shred cf bfs).flags &&& COADD_FAILURE = 0 →
      ∃ l, (shred cf bfs).band_results = some l ∧
        l.map BandRes.flags = bfs) ∧
    ((shred cf bfs).flags &&& COADD_FAILURE ≠ 0 →
      (shred cf bfs).band_results = none) := by
  unfold shred
  by_cases h : cf ≠ 0 ∧ cf &&& EM_MAXITER = 0
  · rw [if_pos h]
    refine ⟨?_, ?_⟩
    · intro hc
      have hc2 : (0 ||| COADD_FAILURE) &&& COADD_FAILURE = 0 := hc
      exact absurd hc2 (by decide)
    · intro _
      rfl
  · rw [if_neg h]
    refine ⟨?_, ?_⟩
    · intro _
      exact ⟨(do_multiband_fit 0 bfs).2, rfl, do_multiband_fit_map_flags 0 bfs⟩
    · intro hc
      exact absurd (multiband_flags_coadd_bit bfs) hc

/-- Witness for C6 at concrete inputs: a clean coadd with one failing and
one passing band keeps both entries in order, and a hard coadd failure
drops band_results. -/
theorem C6_band_results_shape_witness :
    (∃ l, (shred 0 [1, 0]).band_results = some l ∧
      l.map BandRes.flags = [1, 0]) ∧
    (shred 5 [1, 0]).band_results = none :=
  ⟨(C6_band_results_shape 0 [1, 0]).1 (by decide),
   (C6_band_results_shape 5 [1, 0]).2 (by decide)⟩

/-- C10 as stated fails on the code: with coadd flags solely the
max-iterations bit but a band fit failing its gate (flags 1), the
aggregate flags are BAND_FAILURE, not 0, even though the stored
coadd_result flags are indeed nonzero and never merged. -/
theorem C10_counterexample :
    (shred EM_MAXITER [1]).coadd_flags = EM_MAXITER ∧ EM_MAXITER ≠ 0 ∧
      (shred EM_MAXITER [1]).flags = BAND_FAILURE ∧
      (shred EM_MAXITER [1]).flags ≠ 0 := by
  refine ⟨rfl, by decide, rfl, by decide⟩

/-- C10 amended: the aggregate flags only ever take the values 0,
COADD_FAILURE or BAND_FAILURE; the coadd fit's own flags are never merged
in (source line 86 is a comparison, not an assignment), so a coadd fit
that stopped only on the iteration budget contributes nothing: its
aggregate flags equal those of a clean-coadd run, and when every band fit
also passes its gate they are 0 although the stored coadd_result flags
are the nonzero EM_MAXITER. -/
theorem C10_flags_invariant (cf : Nat) (bfs : List Nat) :
    ((shred cf bfs).flags = 0 ∨ (shred cf bfs).flags = COADD_FAILURE ∨
      (shred cf bfs).flags = BAND_FAILURE) ∧
    (shred EM_MAXITER bfs).flags = (shred 0 bfs).flags ∧
    ((∀ bf ∈ bfs, band_failed bf = false) →
      (shred EM_MAXITER bfs).flags = 0 ∧
        (shred EM_MAXITER bfs).coadd_flags = EM_MAXITER ∧ EM_MAXITER ≠ 0) := by
  refine ⟨?_, ?_, ?_⟩
  · unfold shred
    by_cases h : cf ≠ 0 ∧ cf &&& EM_MAXITER = 0
    · rw [if_pos h]
      right; left; rfl
    · rw [if_neg h]
      rcases multiband_flags_cases bfs with h2 | h2
      · left; exact h2
      · right; right; exact h2
  · have h2 : ¬(EM_MAXITER ≠ 0 ∧ EM_MAXITER &&& EM_MAXITER = 0) := by decide
    have h0 : ¬((0 : Nat) ≠ 0 ∧ (0 : Nat) &&& EM_MAXITER = 0) := by decide
    unfold shred
    rw [if_neg h2, if_neg h0]
  · intro hb
    have h2 : ¬(EM_MAXITER ≠ 0 ∧ EM_MAXITER &&& EM_MAXITER = 0) := by decide
    refine ⟨?_, rfl, by decide⟩
    unfold shred
    rw [if_neg h2]
    exact do_multiband_fit_no_fail 0 bfs hb

/-- Witness for C10: coadd stopped on the iteration budget only, both
band fits pass their gate (one cleanly, one also on the budget only). -/
theorem C10_flags_invariant_witness :
    (shred EM_MAXITER [0, 2]).flags = 0 ∧
      (shred EM_MAXITER [0, 2]).coadd_flags = EM_MAXITER ∧ EM_MAXITER ≠ 0 :=
  (C10_flags_invariant 2 [0, 2]).2.2 (by decide)

/-- Adding a same-length model image pixelwise and then subtracting it
restores the image. -/
theorem zipWith_add_sub_cancel_list (im m : List ℚ) (h : m.length = im.length) :
    List.zipWith (fun a b => a - b)
      (List.zipWith (fun a b => a + b) im m) m = im := by
  induction im generalizing m with
  | nil =>
    cases m with
    | nil => rfl
    | cons b bs => simp at h
  | cons a as ih =>
    cases m with
    | nil => simp at h
    | cons b bs =>
      have h2 : bs.length = as.length := by simpa using h
      simp [ih bs h2]

/-- A zipWith image lines up with the zip of its argument lists entry by
entry. -/
theorem forall₂_zipWith_zip {α β γ : Type} (f : α → β → γ)
    (as : List α) (bs : List β) :
    List.Forall₂ (fun c pair => c = f pair.1 pair.2)
      (List.zipWith f as bs) (as.zip bs) := by
  induction as generalizing bs with
  | nil => exact List.Forall₂.nil
  | cons a as ih =>
    cases bs with
    | nil => exact List.Forall₂.nil
    | cons b bs => exact List.Forall₂.cons rfl (ih bs)

/-- C5: on shape-matched inputs, the exit half of the add_source scope
(run by the source in a finally block, hence on every exit path) maps the
entered state back to the subtracted state exactly, band by band and pixel
by pixel; and the entered state is, for every band, the subtracted image
plus object index's model image, pixelwise. -/
theorem C5_add_source_scope (images : List (List ℚ))
    (model_images : List (List (List ℚ))) (index : Nat)
    (h : models_match images model_images index) :
    add_or_subtract_model_image false
        (add_or_subtract_model_image true images model_images index)
        model_images index = images ∧
    List.Forall₂
      (fun entered pair =>
        entered = List.zipWith (fun a b => a + b) pair.1 (pair.2.getD index []))
      (add_or_subtract_model_image true images model_images index)
      (images.zip model_images) := by
  simp only [models_match] at h
  refine ⟨?_, forall₂_zipWith_zip
    (fun im bms => List.zipWith (fun a b => a + b) im (bms.getD index []))
    images model_images⟩
  induction h with
  | nil => rfl
  | @cons im bms ims bmss h1 h2 ih =>
    exact congr
      (congrArg List.cons (zipWith_add_sub_cancel_list im (bms.getD index []) h1))
      ih

/-- Witness for C5: two bands of different sizes, object 0. -/
theorem C5_add_source_scope_witness :
    add_or_subtract_model_image false
        (add_or_subtract_model_image true ([[1, 2], [3]] : List (List ℚ))
          ([[[10, 20]], [[5]]] : List (List (List ℚ))) 0)
        ([[[10, 20]], [[5]]] : List (List (List ℚ))) 0 =
      ([[1, 2], [3]] : List (List ℚ)) ∧
    List.Forall₂
      (fun entered pair =>
        entered = List.zipWith (fun a b => a + b) pair.1 (pair.2.getD 0 []))
      (add_or_subtract_model_image true ([[1, 2], [3]] : List (List ℚ))
        ([[[10, 20]], [[5]]] : List (List (List ℚ))) 0)
      (([[1, 2], [3]] : List (List ℚ)).zip
        ([[[10, 20]], [[5]]] : List (List (List ℚ)))) :=
  C5_add_source_scope [[1, 2], [3]] [[[10, 20]], [[5]]] 0
    (List.Forall₂.cons rfl (List.Forall₂.cons rfl List.Forall₂.nil))

/-- Subtracting an all-zero image of matching length changes nothing. -/
theorem zipWith_sub_replicate_zero (im : List ℚ) :
    List.zipWith (fun a b => a - b) im (List.replicate im.length 0) = im := by
  induction im with
  | nil => rfl
  | cons a as ih => simp [List.replicate_succ, ih]

/-- Two successive pixelwise subtractions equal one subtraction of the
pixelwise sum. -/
theorem zipWith_sub_sub (a b c : List ℚ) :
    List.zipWith (fun x y => x - y)
        (List.zipWith (fun x y => x - y) a b) c =
      List.zipWith (fun x y => x - y) a
        (List.zipWith (fun x y => x + y) b c) := by
  induction a generalizing b c with
  | nil => rfl
  | cons x xs ih =>
    cases b with
    | nil => rfl
    | cons y ys =>
      cases c with
      | nil => rfl
      | cons z zs => simp [ih, sub_sub]

/-- Adding back a same-length subtracted image restores the original. -/
theorem zipWith_sub_add_cancel_list (a b : List ℚ) (h : b.length = a.length) :
    List.zipWith (fun x y => x + y)
      (List.zipWith (fun x y => x - y) a b) b = a := by
  induction a generalizing b with
  | nil =>
    cases b with
    | nil => rfl
    | cons y ys => simp at h
  | cons x xs ih =>
    cases b with
    | nil => simp at h
    | cons y ys =>
      have h2 : ys.length = xs.length := by simpa using h
      simp [ih ys h2]

/-- The pixelwise sum of same-length model images keeps that length. -/
theorem sum_model_images_length (n : Nat) (bms : List (List ℚ))
    (h : ∀ m ∈ bms, m.length = n) :
    (sum_model_images n bms).length = n := by
  induction bms with
  | nil => simp [sum_model_images]
  | cons m ms ih =>
    have hm : m.length = n := h m (List.mem_cons_self m ms)
    have ht := ih fun x hx => h x (List.mem_cons_of_mem m hx)
    simp only [sum_model_images, List.foldr_cons] at ht ⊢
    rw [List.length_zipWith, hm, ht, Nat.min_self]

/-- Folding pixelwise subtraction of each model image over a band image
equals one pixelwise subtraction of their sum. -/
theorem foldl_sub_eq_zipWith_sum (im : List ℚ) (bms : List (List ℚ))
    (h : ∀ m ∈ bms, m.length = im.length) :
    bms.foldl (fun img m => List.zipWith (fun a b => a - b) img m) im =
      List.zipWith (fun a b => a - b) im (sum_model_images im.length bms) := by
  induction bms generalizing im with
  | nil => simp [sum_model_images, zipWith_sub_replicate_zero]
  | cons m ms ih =>
    have hm : m.length = im.length := h m (List.mem_cons_self m ms)
    have hlen : (List.zipWith (fun a b => a - b) im m).length = im.length := by
      rw [List.length_zipWith, hm, Nat.min_self]
    simp only [List.foldl_cons]
    rw [ih (List.zipWith (fun a b => a - b) im m)
      (fun x hx => by rw [hlen]; exact h x (List.mem_cons_of_mem m hx)), hlen]
    rw [zipWith_sub_sub]
    rfl

/-- C9: each band of the subtracted observation set has image equal to the
original band image minus the pixelwise sum of all per-object model images
for that band; adding that sum back restores the original image; and the
weight map, Jacobian and PSF are the original Observation's, unchanged. -/
theorem C9_subtracted_mbobs {P : Type} (mbobs : List (Obs P))
    (model_images : List (List (List ℚ)))
    (h : bands_match mbobs model_images) :
    List.Forall₂
      (fun dobs pair =>
        dobs.image = List.zipWith (fun a b => a - b) pair.1.image
            (sum_model_images pair.1.image.length pair.2) ∧
        List.zipWith (fun a b => a + b) dobs.image
            (sum_model_images pair.1.image.length pair.2) = pair.1.image ∧
        dobs.weight = pair.1.weight ∧ dobs.jacobian = pair.1.jacobian ∧
        dobs.psf = pair.1.psf)
      (build_subtracted_mbobs mbobs model_images) (mbobs.zip model_images) := by
  simp only [bands_match] at h
  induction h with
  | nil => exact List.Forall₂.nil
  | @cons obs bms obss bmss h1 h2 ih =>
    refine List.Forall₂.cons ⟨?_, ?_, rfl, rfl, rfl⟩ ih
    · exact foldl_sub_eq_zipWith_sum obs.image bms h1
    · show List.zipWith (fun a b => a + b)
          (bms.foldl (fun img m => List.zipWith (fun a b => a - b) img m)
            obs.image)
          (sum_model_images obs.image.length bms) = obs.image
      rw [foldl_sub_eq_zipWith_sum obs.image bms h1]
      exact zipWith_sub_add_cancel_list obs.image _
        (sum_model_images_length obs.image.length bms h1)

/-- Witness for C9: one band with two pixels and two object models. -/
theorem C9_subtracted_mbobs_witness :
    List.Forall₂
      (fun (dobs : Obs Unit) pair =>
        dobs.image = List.zipWith (fun a b => a - b) pair.1.image
            (sum_model_images pair.1.image.length pair.2) ∧
        List.zipWith (fun a b => a + b) dobs.image
            (sum_model_images pair.1.image.length pair.2) = pair.1.image ∧
        dobs.weight = pair.1.weight ∧ dobs.jacobian = pair.1.jacobian ∧
        dobs.psf = pair.1.psf)
      (build_subtracted_mbobs
        [Obs.mk ([4, 5] : List ℚ) [1, 1] (Jacobian.mk 1 0 0) ()]
        [[[1, 1], [2, 2]]])
      ([Obs.mk ([4, 5] : List ℚ) [1, 1] (Jacobian.mk 1 0 0) ()].zip
        [[[1, 1], [2, 2]]]) :=
  C9_subtracted_mbobs
    [Obs.mk ([4, 5] : List ℚ) [1, 1] (Jacobian.mk 1 0 0) ()]
    [[[1, 1], [2, 2]]]
    (List.Forall₂.cons
      (by
        intro m hm
        simp only [List.mem_cons, List.not_mem_nil, or_false] at hm
        rcases hm with rfl | rfl <;> rfl)
      List.Forall₂.nil)
